import Mathlib

/-!
Verification development for the photo-truck repository.

The frontend (`src/unnamed/part_000`, `src/src/App.vue`) is TypeScript/Vue;
its data interfaces, guard logic and pure helpers are embedded directly.
The Rust backend (scanner, content deduplicator, path classifier, transfer
orchestrator) is not part of the sources; those components are modelled
from the specification, as marked in their doc comments.

Machine numbers (`number` fields holding counts and byte sizes) are
modelled as `Nat`; template strings as `String`/`List Char`.
-/

namespace PhotoTruck

/-- Calendar date carried by photo metadata.  The TypeScript interface
stores `date_time` as `string | null`; the classifier only consumes the
year/month/day components, which we model structurally. -/
structure PDate where
  year : Nat
  month : Nat
  day : Nat
deriving DecidableEq, Repr

/-- `PhotoInfo` from `src/unnamed/part_000` lines 24-33 (identical in
`src/src/App.vue` lines 19-28): `path`, `file_name`, `file_size`,
`date_time`, `camera`, `target_folder`, `is_duplicate`, `duplicate_of`.
Note the interface has a `camera` field but no `make` field. -/
structure PhotoInfo where
  path : String
  file_name : String
  file_size : Nat
  date_time : Option PDate
  camera : Option String
  target_folder : String
  is_duplicate : Bool
  duplicate_of : Option String
deriving DecidableEq, Repr

/-- The field names of the `PhotoInfo` interface, in source order
(`src/unnamed/part_000` lines 24-33). -/
def PhotoInfo.fields : List String :=
  ["path", "file_name", "file_size", "date_time", "camera",
   "target_folder", "is_duplicate", "duplicate_of"]

instance : Inhabited PhotoInfo :=
  ⟨{ path := "", file_name := "", file_size := 0, date_time := none,
     camera := none, target_folder := "", is_duplicate := false,
     duplicate_of := none }⟩

/-- `ScanResult` from `src/unnamed/part_000` lines 35-39. -/
structure ScanResult where
  total_files : Nat
  total_size : Nat
  photos : List PhotoInfo
deriving DecidableEq, Repr

/-- `TransferProgress` from `src/unnamed/part_000` lines 47-55. -/
structure TransferProgress where
  current : Nat
  total : Nat
  current_file : String
  bytes_transferred : Nat
  total_bytes : Nat
  status : String
  skipped_duplicates : Nat
deriving DecidableEq, Repr

/-- `TransferResult` from `src/unnamed/part_000` lines 57-62. -/
structure TransferResult where
  success_count : Nat
  skip_count : Nat
  error_count : Nat
  errors : List String
deriving DecidableEq, Repr

/-! ## PathClassifier -/

/-- Two-digit zero-padded decimal rendering (months and days). -/
def pad2 (n : Nat) : List Char :=
  [Nat.digitChar (n / 10 % 10), Nat.digitChar (n % 10)]

/-- Four-digit decimal rendering (years). -/
def pad4 (n : Nat) : List Char :=
  [Nat.digitChar (n / 1000 % 10), Nat.digitChar (n / 100 % 10),
   Nat.digitChar (n / 10 % 10), Nat.digitChar (n % 10)]

/-- Modelled from the spec: token substitution of PathClassifier (§4.3,
Rust backend absent from the sources).  Tokens `{year}` (4-digit),
`{month}`/`{day}` (2-digit, zero-padded), `{camera}`, `{make}`; an
absent camera/make resolves to the fixed placeholder "Unknown". -/
def substTemplate (d : PDate) (camera mk : Option String) :
    List Char → List Char
  | '\x7b' :: 'y' :: 'e' :: 'a' :: 'r' :: '\x7d' :: rest =>
      pad4 d.year ++ substTemplate d camera mk rest
  | '\x7b' :: 'm' :: 'o' :: 'n' :: 't' :: 'h' :: '\x7d' :: rest =>
      pad2 d.month ++ substTemplate d camera mk rest
  | '\x7b' :: 'd' :: 'a' :: 'y' :: '\x7d' :: rest =>
      pad2 d.day ++ substTemplate d camera mk rest
  | '\x7b' :: 'c' :: 'a' :: 'm' :: 'e' :: 'r' :: 'a' :: '\x7d' :: rest =>
      (camera.getD "Unknown").toList ++ substTemplate d camera mk rest
  | '\x7b' :: 'm' :: 'a' :: 'k' :: 'e' :: '\x7d' :: rest =>
      (mk.getD "Unknown").toList ++ substTemplate d camera mk rest
  | c :: rest => c :: substTemplate d camera mk rest
  | [] => []

/-- Modelled from the spec: PathClassifier (§4.3, Rust backend absent
from the sources).  Pure function of
`(date_time, camera, make, template, fallback_folder)`; when
`date_time` is absent the whole result collapses to `fallback_folder`
(date tokens are never partially substituted). -/
def classifyPath (dt : Option PDate) (camera mk : Option String)
    (template fallback : String) : String :=
  match dt with
  | none => fallback
  | some d => String.mk (substTemplate d camera mk template.toList)

/-! ## Scanner and ContentDeduplicator -/

/-- A candidate file as the scanner sees it: filesystem path and size,
the metadata collaborator's `{date_time, camera, make}` answer, and the
file's byte content (read by the hashing stage).  Directory traversal,
extension filtering and metadata extraction are I/O; the model takes
the accepted files already listed in scan order. -/
structure SourceFile where
  path : String
  file_name : String
  file_size : Nat
  date_time : Option PDate
  camera : Option String
  make : Option String
  content : List Nat
deriving DecidableEq, Repr

instance : Inhabited SourceFile :=
  ⟨{ path := "", file_name := "", file_size := 0, date_time := none,
     camera := none, make := none, content := [] }⟩

/-- Modelled from the spec: the quick signature of ContentDeduplicator
(§4.2, Rust backend absent from the sources): size plus hashes of the
first and last 64 KiB; a file smaller than 128 KiB is hashed whole.
Hashes are modelled as the sampled bytes themselves (an injective
hash). -/
def quickSig (f : SourceFile) : Nat × List Nat × List Nat :=
  if f.content.length < 131072 then
    (f.content.length, f.content, [])
  else
    (f.content.length, f.content.take 65536,
     f.content.drop (f.content.length - 65536))

/-- Modelled from the spec: the full content hash of ContentDeduplicator
(§4.2).  The cryptographic hash is modelled as an injective function of
the content, i.e. the content itself, matching the intent that two
files are duplicates iff their full hashes are equal. -/
def fullHash (f : SourceFile) : List Nat :=
  f.content

/-- Two files fall in the same quick-signature bucket and have equal
full hashes, i.e. the deduplicator considers them duplicates. -/
def sameContent (a b : SourceFile) : Bool :=
  decide (quickSig a = quickSig b) && decide (fullHash a = fullHash b)

/-- Index (within `seen`, the files preceding the current one in scan
order) of the first file the deduplicator matches with `f`. -/
def firstMatch (f : SourceFile) : List SourceFile → Option Nat
  | [] => none
  | g :: gs =>
      if sameContent g f then some 0 else (firstMatch f gs).map (· + 1)

/-- Scan-order index of the canonical representative of file `i`:
the first earlier file with the same content, if any. -/
def dupSource (files : List SourceFile) (i : Nat) : Option Nat :=
  firstMatch (files.getD i default) (files.take i)

/-- Assemble the `PhotoInfo` record for one scanned file:
`target_folder` is computed by the PathClassifier; `dup` is the
representative's path when the deduplicator marked the file. -/
def toPhotoInfo (template fallback : String) (f : SourceFile)
    (dup : Option String) : PhotoInfo :=
  { path := f.path, file_name := f.file_name, file_size := f.file_size,
    date_time := f.date_time, camera := f.camera,
    target_folder := classifyPath f.date_time f.camera f.make template fallback,
    is_duplicate := dup.isSome, duplicate_of := dup }

/-- Modelled from the spec: ContentDeduplicator tie-break (§4.2) over
the whole batch: for each file, the first file in scan order with equal
content is the canonical representative; every later file of the
cluster is marked `is_duplicate` with `duplicate_of` pointing at the
representative's path. -/
def markDuplicates (template fallback : String)
    (files : List SourceFile) : List PhotoInfo :=
  (List.range files.length).map fun i =>
    toPhotoInfo template fallback (files.getD i default)
      (match dupSource files i with
       | some j => some (files.getD j default).path
       | none => none)

/-- Modelled from the spec: Scanner (§4.1, Rust backend absent from the
sources).  The accepted files arrive in scan order; totals are
accumulated over the walk and the batch is delegated to the
deduplicator. -/
def scanSourceFolder (template fallback : String)
    (files : List SourceFile) : ScanResult :=
  { total_files := files.foldl (fun n _ => n + 1) 0,
    total_size := files.foldl (fun s f => s + f.file_size) 0,
    photos := markDuplicates template fallback files }

/-! ## TransferOrchestrator -/

/-- Terminal/progress status of a run (spec §3, `TransferProgress.status`). -/
inductive TStatus where
  | scanning
  | transferring
  | completed
  | cancelled
deriving DecidableEq, Repr

/-- Outcome of attempting to copy one file: copied to the destination,
skipped because identical content is already present there, or a
per-file failure with a human-readable message (spec §4.5). -/
inductive CopyOutcome where
  | copied
  | alreadyPresent
  | failed (msg : String)

/-- Accumulated state of a transfer run: the three counters, the error
list, and the scan-order indices of the files actually copied. -/
structure RunAcc where
  success : Nat
  skip : Nat
  error : Nat
  errors : List String
  copied : List Nat
deriving DecidableEq, Repr

/-- The cooperative cancellation flag as observed at the per-file check
point before file `i`: `cancelAt = some k` means the flag was set while
file `k` was about to be processed (and stays set from then on). -/
def cancelRequested (cancelAt : Option Nat) (i : Nat) : Bool :=
  match cancelAt with
  | some k => k ≤ i
  | none => false

/-- The sentinel entry appended to `errors` on cancellation; the
frontend tests for exactly this string
(`src/unnamed/part_000` line 664). -/
def cancelSentinel : String := "传输已取消"

/-- Modelled from the spec: the per-file loop of TransferOrchestrator
(§4.5, Rust backend absent from the sources).  For each photo in scan
order: check the cancellation flag first (if set: stop, append the
sentinel, status `cancelled`); else skip duplicates when requested;
else copy, with the destination-aware skip and per-file failure
outcomes supplied by the `outcome` oracle. -/
def runTransferGo (skipDup : Bool) (cancelAt : Option Nat)
    (outcome : Nat → CopyOutcome) :
    Nat → List PhotoInfo → RunAcc → RunAcc × TStatus
  | _, [], acc => (acc, .completed)
  | i, p :: rest, acc =>
      if cancelRequested cancelAt i then
        ({ acc with errors := acc.errors ++ [cancelSentinel] }, .cancelled)
      else if skipDup && p.is_duplicate then
        runTransferGo skipDup cancelAt outcome (i + 1) rest
          { acc with skip := acc.skip + 1 }
      else
        match outcome i with
        | .copied =>
            runTransferGo skipDup cancelAt outcome (i + 1) rest
              { acc with success := acc.success + 1,
                         copied := acc.copied ++ [i] }
        | .alreadyPresent =>
            runTransferGo skipDup cancelAt outcome (i + 1) rest
              { acc with skip := acc.skip + 1 }
        | .failed msg =>
            runTransferGo skipDup cancelAt outcome (i + 1) rest
              { acc with error := acc.error + 1,
                         errors := acc.errors ++ [msg] }

/-- Modelled from the spec: a whole transfer run over a scanned batch
(§4.5).  Returns the `TransferResult`, the terminal status, and the
scan-order indices of the files copied to the destination. -/
def runTransfer (skipDup : Bool) (cancelAt : Option Nat)
    (outcome : Nat → CopyOutcome) (photos : List PhotoInfo) :
    TransferResult × TStatus × List Nat :=
  let r := runTransferGo skipDup cancelAt outcome 0 photos
    { success := 0, skip := 0, error := 0, errors := [], copied := [] }
  ({ success_count := r.1.success, skip_count := r.1.skip,
     error_count := r.1.error, errors := r.1.errors },
   r.2, r.1.copied)

/-! ## Frontend state and handlers (`src/unnamed/part_000`) -/

/-- `ThumbnailInfo` from `src/unnamed/part_000` lines 78-84. -/
structure ThumbnailInfo where
  file_path : String
  data : String
  width : Nat
  height : Nat
  format : String
deriving DecidableEq, Repr

/-- `TransferRecord` from `src/unnamed/part_000` lines 64-76. -/
structure TransferRecord where
  id : String
  timestamp : String
  source_dir : String
  target_dir : String
  template : String
  total_files : Nat
  success_count : Nat
  skip_count : Nat
  error_count : Nat
  total_size : Nat
  duration_secs : Nat
deriving DecidableEq, Repr

/-- The mutable `ref` state of the frontend component
(`src/unnamed/part_000` lines 93-127). -/
structure AppState where
  selectedTemplate : String
  customTemplate : String
  fallbackFolder : String
  sourceDir : String
  targetDir : String
  scanResult : Option ScanResult
  classificationPreview : List (String × Nat × List String)
  skipDuplicates : Bool
  isScanning : Bool
  isTransferring : Bool
  transferProgress : Option TransferProgress
  transferResult : Option TransferResult
  errorMessage : String
  activeTab : String
  renameEnabled : Bool
  selectedRenameTemplate : String
  customRenameTemplate : String
  renameCounterStart : Nat
  renameCounterDigits : Nat
  transferHistory : List TransferRecord
  thumbnails : List ThumbnailInfo
deriving DecidableEq, Repr

/-- `selectSourceDir` (`src/unnamed/part_000` lines 203-215): `selected`
is the dialog's answer (`none` when dismissed; the empty string is
falsy in the `if (selected)` test).  A chosen directory replaces
`sourceDir` and clears `scanResult`, `classificationPreview` and
`thumbnails`. -/
def selectSourceDir (s : AppState) (selected : Option String) : AppState :=
  match selected with
  | some dir =>
      if dir = "" then s
      else { s with sourceDir := dir, scanResult := none,
                    classificationPreview := [], thumbnails := [] }
  | none => s

/-- `selectTargetDir` (`src/unnamed/part_000` lines 217-226): a chosen
directory replaces `targetDir`; nothing else is touched. -/
def selectTargetDir (s : AppState) (selected : Option String) : AppState :=
  match selected with
  | some dir =>
      if dir = "" then s
      else { s with targetDir := dir }
  | none => s

/-- The synchronous guard portion of `startTransfer`
(`src/unnamed/part_000` lines 288-304): the precondition checks and the
ref mutations performed before the `start_transfer` command is invoked.
The returned Bool records whether the transfer command was invoked. -/
def startTransfer (s : AppState) : AppState × Bool :=
  if s.targetDir = "" then
    ({ s with errorMessage := "请先选择目标文件夹" }, false)
  else
    match s.scanResult with
    | none => ({ s with errorMessage := "没有可传输的照片" }, false)
    | some r =>
        if r.total_files = 0 then
          ({ s with errorMessage := "没有可传输的照片" }, false)
        else
          ({ s with isTransferring := true, errorMessage := "",
                    transferResult := none, transferProgress := none,
                    activeTab := "transfer" }, true)

/-! ## `formatSize` (`src/unnamed/part_000` lines 371-384) -/

/-- Decimal digits of `n`, most significant first, via explicit fuel
(`fuel > n` suffices); empty for `n = 0`. -/
def natDigitsAux : Nat → Nat → List Char
  | 0, _ => []
  | fuel + 1, n =>
      if n = 0 then []
      else natDigitsAux fuel (n / 10) ++ [Nat.digitChar (n % 10)]

/-- Decimal string of a natural number (the rendering JavaScript gives
a nonnegative integer `number`). -/
def natRepr (n : Nat) : String :=
  if n = 0 then "0" else String.mk (natDigitsAux (n + 1) n)

/-- `(num / den).toFixed(2)`, modelled as exact rational fixed-point
rounding (round half up) of `num / den` to two decimals.  The binary
floating-point double rounding is not modelled; the claims checked here
concern only the shape of the output (integer part, a point, exactly
two decimal digits), not the digit values. -/
def toFixed2 (n den : Nat) : String :=
  let scaled := (n * 100 * 2 + den) / (den * 2)
  natRepr (scaled / 100) ++ "." ++ String.mk (pad2 (scaled % 100))

/-- `formatSize` from `src/unnamed/part_000` lines 371-384. -/
def formatSize (bytes : Nat) : String :=
  let kb := 1024
  let mb := kb * 1024
  let gb := mb * 1024
  if bytes ≥ gb then toFixed2 bytes gb ++ " GB"
  else if bytes ≥ mb then toFixed2 bytes mb ++ " MB"
  else if bytes ≥ kb then toFixed2 bytes kb ++ " KB"
  else natRepr bytes ++ " B"

/-- `s` ends in the string `suf`. -/
def endsWithStr (s suf : String) : Bool :=
  List.isPrefixOf suf.data.reverse s.data.reverse

/-! ## `progressPercent` (`src/unnamed/part_000` lines 149-154) -/

/-- JavaScript `number` values as relevant to `progressPercent`:
IEEE-754 special values are represented exactly; finite values are kept
as exact rationals (the float rounding of finite arithmetic is not
modelled, which is irrelevant to the division-by-zero behavior checked
here). -/
inductive JsNum where
  | num (q : ℚ)
  | posInf
  | negInf
  | nan
deriving DecidableEq

/-- JavaScript `/` on numbers (IEEE-754 division). -/
def jsDiv : JsNum → JsNum → JsNum
  | .nan, _ => .nan
  | _, .nan => .nan
  | .num a, .num b =>
      if b = 0 then
        if a = 0 then .nan else if 0 < a then .posInf else .negInf
      else .num (a / b)
  | .num _, .posInf => .num 0
  | .num _, .negInf => .num 0
  | .posInf, .num b => if b < 0 then .negInf else .posInf
  | .negInf, .num b => if b < 0 then .posInf else .negInf
  | .posInf, .posInf => .nan
  | .posInf, .negInf => .nan
  | .negInf, .posInf => .nan
  | .negInf, .negInf => .nan

/-- JavaScript `*` on numbers (IEEE-754 multiplication). -/
def jsMul : JsNum → JsNum → JsNum
  | .nan, _ => .nan
  | _, .nan => .nan
  | .num a, .num b => .num (a * b)
  | .num a, .posInf => if a = 0 then .nan else if 0 < a then .posInf else .negInf
  | .num a, .negInf => if a = 0 then .nan else if 0 < a then .negInf else .posInf
  | .posInf, .num b => if b = 0 then .nan else if 0 < b then .posInf else .negInf
  | .negInf, .num b => if b = 0 then .nan else if 0 < b then .negInf else .posInf
  | .posInf, .posInf => .posInf
  | .posInf, .negInf => .negInf
  | .negInf, .posInf => .negInf
  | .negInf, .negInf => .posInf

/-- JavaScript `Math.round`: NaN and infinities pass through; a finite
value is rounded to the nearest integer, half toward positive
infinity. -/
def mathRound : JsNum → JsNum
  | .num q => .num ((⌊q + 1 / 2⌋ : ℤ) : ℚ)
  | x => x

/-- `progressPercent` from `src/unnamed/part_000` lines 149-154:
`0` when no progress snapshot exists, otherwise
`Math.round((current / total) * 100)` with no guard on `total`. -/
def progressPercent (tp : Option TransferProgress) : JsNum :=
  match tp with
  | none => .num 0
  | some p =>
      mathRound (jsMul (jsDiv (.num (p.current : ℚ)) (.num (p.total : ℚ)))
        (.num 100))

/-! ## Helper lemmas -/

lemma getD_eq_of_lt {α : Type} [Inhabited α] (l : List α) (i : Nat)
    (h : i < l.length) : l.getD i default = l[i] := by
  rw [List.getD_eq_getElem?_getD, List.getElem?_eq_getElem h]
  rfl

lemma length_markDuplicates (t fb : String) (fs : List SourceFile) :
    (markDuplicates t fb fs).length = fs.length := by
  simp [markDuplicates]

lemma markDuplicates_getD (t fb : String) (fs : List SourceFile) (i : Nat)
    (hi : i < fs.length) :
    (markDuplicates t fb fs).getD i default =
      toPhotoInfo t fb (fs.getD i default)
        (match dupSource fs i with
         | some j => some ((fs.getD j default).path)
         | none => none) := by
  have hl : i < (markDuplicates t fb fs).length := by
    rw [length_markDuplicates]; exact hi
  rw [getD_eq_of_lt _ _ hl]
  simp [markDuplicates]

lemma markDuplicates_map_size (t fb : String) (fs : List SourceFile) :
    (markDuplicates t fb fs).map (fun p => p.file_size) =
      fs.map (fun f => f.file_size) := by
  apply List.ext_getElem
  · simp [markDuplicates]
  · intro i h1 h2
    have hi : i < fs.length := by
      simpa using h2
    simp [markDuplicates, toPhotoInfo, List.getElem?_eq_getElem hi]

lemma foldl_add_one {α : Type} (l : List α) (n : Nat) :
    l.foldl (fun m _ => m + 1) n = n + l.length := by
  induction l generalizing n with
  | nil => simp
  | cons a l ih => simp [ih]; omega

lemma foldl_add_size (l : List SourceFile) (n : Nat) :
    l.foldl (fun s f => s + f.file_size) n =
      n + (l.map (fun f => f.file_size)).sum := by
  induction l generalizing n with
  | nil => simp
  | cons a l ih => simp [ih]; omega

lemma scan_total_files_eq (t fb : String) (fs : List SourceFile) :
    (scanSourceFolder t fb fs).total_files =
      (scanSourceFolder t fb fs).photos.length := by
  simp [scanSourceFolder, foldl_add_one, length_markDuplicates]

lemma scan_total_size_eq (t fb : String) (fs : List SourceFile) :
    (scanSourceFolder t fb fs).total_size =
      ((scanSourceFolder t fb fs).photos.map (fun p => p.file_size)).sum := by
  simp [scanSourceFolder, foldl_add_size, markDuplicates_map_size]

lemma quickSig_congr (a b : SourceFile) (h : a.content = b.content) :
    quickSig a = quickSig b := by
  simp [quickSig, h]

lemma sameContent_iff (a b : SourceFile) :
    sameContent a b = true ↔ a.content = b.content := by
  simp only [sameContent, Bool.and_eq_true, decide_eq_true_eq, fullHash]
  constructor
  · rintro ⟨-, h⟩
    exact h
  · intro h
    exact ⟨quickSig_congr a b h, h⟩

lemma firstMatch_none_iff (f : SourceFile) (l : List SourceFile) :
    firstMatch f l = none ↔
      ∀ j, j < l.length → sameContent (l.getD j default) f = false := by
  induction l with
  | nil => simp [firstMatch]
  | cons g gs ih =>
      cases hg : sameContent g f with
      | true =>
          simp only [firstMatch, hg, if_true]
          apply iff_of_false
          · simp
          · intro hall
            have h0 := hall 0 (by simp)
            rw [List.getD_cons_zero, hg] at h0
            exact absurd h0 (by simp)
      | false =>
          simp only [firstMatch, hg, Bool.false_eq_true, if_false,
            Option.map_eq_none']
          rw [ih]
          constructor
          · intro h j hj
            cases j with
            | zero => rw [List.getD_cons_zero, hg]
            | succ j2 =>
                rw [List.getD_cons_succ]
                exact h j2 (by simpa using hj)
          · intro h j hj
            have := h (j + 1) (by simpa using hj)
            rw [List.getD_cons_succ] at this
            exact this

lemma firstMatch_some_spec (f : SourceFile) (l : List SourceFile) (r : Nat) :
    firstMatch f l = some r →
      r < l.length ∧ sameContent (l.getD r default) f = true ∧
        ∀ j, j < r → sameContent (l.getD j default) f = false := by
  induction l generalizing r with
  | nil => simp [firstMatch]
  | cons g gs ih =>
      cases hg : sameContent g f with
      | true =>
          simp only [firstMatch, hg, if_true]
          intro h
          have hr : r = 0 := by simpa using h.symm
          subst hr
          exact ⟨by simp, by simpa using hg, fun j hj => absurd hj (by omega)⟩
      | false =>
          simp only [firstMatch, hg, Bool.false_eq_true, if_false]
          intro h
          rcases Option.map_eq_some'.mp h with ⟨r2, hr2, hr⟩
          subst hr
          obtain ⟨h1, h2, h3⟩ := ih r2 hr2
          refine ⟨by simpa using h1, by simpa [List.getD_cons_succ] using h2, ?_⟩
          intro j hj
          cases j with
          | zero => simpa using hg
          | succ j2 =>
              rw [List.getD_cons_succ]
              exact h3 j2 (by omega)

lemma take_getD (l : List SourceFile) (i j : Nat) (hj : j < i) :
    (l.take i).getD j default = l.getD j default := by
  rw [List.getD_eq_getElem?_getD, List.getD_eq_getElem?_getD,
    List.getElem?_take_of_lt hj]

lemma dupSource_none_iff (fs : List SourceFile) (i : Nat) (hi : i < fs.length) :
    dupSource fs i = none ↔
      ∀ j, j < i →
        (fs.getD j default).content ≠ (fs.getD i default).content := by
  rw [dupSource, firstMatch_none_iff]
  have hlen : (fs.take i).length = i := by
    rw [List.length_take]
    omega
  constructor
  · intro h j hj hc
    have hf := h j (by rw [hlen]; exact hj)
    rw [take_getD fs i j hj] at hf
    exact absurd ((sameContent_iff _ _).mpr hc) (by rw [hf]; simp)
  · intro h j hj
    rw [hlen] at hj
    rw [take_getD fs i j hj]
    cases hsc : sameContent (fs.getD j default) (fs.getD i default) with
    | false => rfl
    | true => exact absurd ((sameContent_iff _ _).mp hsc) (h j hj)

lemma dupSource_some_spec (fs : List SourceFile) (i r : Nat) :
    dupSource fs i = some r →
      r < i ∧
        (fs.getD r default).content = (fs.getD i default).content ∧
        ∀ j, j < r →
          (fs.getD j default).content ≠ (fs.getD i default).content := by
  intro h
  obtain ⟨h1, h2, h3⟩ := firstMatch_some_spec _ _ _ h
  have hlen : (fs.take i).length ≤ i := by
    rw [List.length_take]
    omega
  have hr : r < i := lt_of_lt_of_le h1 hlen
  refine ⟨hr, ?_, ?_⟩
  · rw [take_getD fs i r hr] at h2
    exact (sameContent_iff _ _).mp h2
  · intro j hj hc
    have hf := h3 j hj
    rw [take_getD fs i j (lt_trans hj hr)] at hf
    exact absurd ((sameContent_iff _ _).mpr hc) (by rw [hf]; simp)

/-! ## Claim theorems -/

/-- C1: for every `ScanResult` produced by a scan, `total_files` equals
the length of its `photos` sequence and `total_size` equals the sum of
`file_size` over all photos in it. -/
theorem scan_result_invariant (template fallback : String)
    (files : List SourceFile) :
    (scanSourceFolder template fallback files).total_files =
      (scanSourceFolder template fallback files).photos.length ∧
    (scanSourceFolder template fallback files).total_size =
      ((scanSourceFolder template fallback files).photos.map
        (fun p => p.file_size)).sum :=
  ⟨scan_total_files_eq template fallback files,
   scan_total_size_eq template fallback files⟩

/-- C2: within a scanned batch, for each file the deduplicator behaves
as follows.  If no earlier file has the same byte content, the file is
the representative: `is_duplicate = false` and `duplicate_of = none`.
If some earlier file has the same content, the file is marked
`is_duplicate = true` and `duplicate_of` names the path of the first
file of the cluster in scan order (an index `r < i`, so `duplicate_of`
never points forward), and that representative itself is not marked a
duplicate.  Hence every content cluster of size ≥ 2 has exactly one
non-duplicate, its first member in scan order. -/
theorem scan_duplicate_marking (template fallback : String)
    (files : List SourceFile) (i : Nat) (hi : i < files.length) :
    ((∀ j, j < i →
        (files.getD j default).content ≠ (files.getD i default).content) →
      ((scanSourceFolder template fallback files).photos.getD i
          default).is_duplicate = false ∧
      ((scanSourceFolder template fallback files).photos.getD i
          default).duplicate_of = none) ∧
    (∀ j, j < i →
      (files.getD j default).content = (files.getD i default).content →
      ∃ r, r < i ∧
        (files.getD r default).content = (files.getD i default).content ∧
        (∀ j2, j2 < r →
          (files.getD j2 default).content ≠ (files.getD i default).content) ∧
        ((scanSourceFolder template fallback files).photos.getD i
            default).is_duplicate = true ∧
        ((scanSourceFolder template fallback files).photos.getD i
            default).duplicate_of = some ((files.getD r default).path) ∧
        ((scanSourceFolder template fallback files).photos.getD r
            default).is_duplicate = false ∧
        ((scanSourceFolder template fallback files).photos.getD r
            default).duplicate_of = none) := by
  have hph : (scanSourceFolder template fallback files).photos =
      markDuplicates template fallback files := rfl
  constructor
  · intro hrep
    have hds : dupSource files i = none :=
      (dupSource_none_iff files i hi).mpr hrep
    rw [hph, markDuplicates_getD _ _ _ _ hi, hds]
    simp [toPhotoInfo]
  · intro j hj hcontent
    cases hds : dupSource files i with
    | none =>
        exact absurd hcontent ((dupSource_none_iff files i hi).mp hds j hj)
    | some r =>
        obtain ⟨hr, hc, hmin⟩ := dupSource_some_spec files i r hds
        have hri : r < files.length := lt_trans hr hi
        have hdr : dupSource files r = none := by
          rw [dupSource_none_iff files r hri]
          intro j2 hj2 hc2
          exact absurd (hc2.trans hc) (hmin j2 hj2)
        refine ⟨r, hr, hc, hmin, ?_, ?_, ?_, ?_⟩
        · rw [hph, markDuplicates_getD _ _ _ _ hi, hds]
          simp [toPhotoInfo]
        · rw [hph, markDuplicates_getD _ _ _ _ hi, hds]
          simp [toPhotoInfo]
        · rw [hph, markDuplicates_getD _ _ _ _ hri, hdr]
          simp [toPhotoInfo]
        · rw [hph, markDuplicates_getD _ _ _ _ hri, hdr]
          simp [toPhotoInfo]

/-- Two sample files with identical byte content at different paths. -/
def fileA : SourceFile :=
  { path := "a.jpg", file_name := "a.jpg", file_size := 3,
    date_time := none, camera := none, make := none, content := [1, 2, 3] }

/-- Second sample file, same content as `fileA`. -/
def fileB : SourceFile :=
  { path := "b.jpg", file_name := "b.jpg", file_size := 3,
    date_time := none, camera := none, make := none, content := [1, 2, 3] }

/-- Witness for C2 at the concrete batch `[fileA, fileB]`, `i = 1`. -/
theorem scan_duplicate_marking_witness :
    (1 < ([fileA, fileB] : List SourceFile).length) ∧
    (((∀ j, j < 1 →
        (([fileA, fileB] : List SourceFile).getD j default).content ≠
          (([fileA, fileB] : List SourceFile).getD 1 default).content) →
      ((scanSourceFolder "{year}" "Unknown" [fileA, fileB]).photos.getD 1
          default).is_duplicate = false ∧
      ((scanSourceFolder "{year}" "Unknown" [fileA, fileB]).photos.getD 1
          default).duplicate_of = none) ∧
    (∀ j, j < 1 →
      (([fileA, fileB] : List SourceFile).getD j default).content =
        (([fileA, fileB] : List SourceFile).getD 1 default).content →
      ∃ r, r < 1 ∧
        (([fileA, fileB] : List SourceFile).getD r default).content =
          (([fileA, fileB] : List SourceFile).getD 1 default).content ∧
        (∀ j2, j2 < r →
          (([fileA, fileB] : List SourceFile).getD j2 default).content ≠
            (([fileA, fileB] : List SourceFile).getD 1 default).content) ∧
        ((scanSourceFolder "{year}" "Unknown" [fileA, fileB]).photos.getD 1
            default).is_duplicate = true ∧
        ((scanSourceFolder "{year}" "Unknown" [fileA, fileB]).photos.getD 1
            default).duplicate_of =
          some ((([fileA, fileB] : List SourceFile).getD r default).path) ∧
        ((scanSourceFolder "{year}" "Unknown" [fileA, fileB]).photos.getD r
            default).is_duplicate = false ∧
        ((scanSourceFolder "{year}" "Unknown" [fileA, fileB]).photos.getD r
            default).duplicate_of = none)) :=
  ⟨by decide,
   scan_duplicate_marking "{year}" "Unknown" [fileA, fileB] 1 (by decide)⟩

lemma runGo_counts (sd : Bool) (ca : Option Nat) (oc : Nat → CopyOutcome)
    (l : List PhotoInfo) :
    ∀ (i : Nat) (acc : RunAcc),
      ((runTransferGo sd ca oc i l acc).1.success +
        (runTransferGo sd ca oc i l acc).1.skip +
        (runTransferGo sd ca oc i l acc).1.error ≤
        acc.success + acc.skip + acc.error + l.length) ∧
      ((runTransferGo sd ca oc i l acc).2 ≠ TStatus.cancelled →
        (runTransferGo sd ca oc i l acc).1.success +
          (runTransferGo sd ca oc i l acc).1.skip +
          (runTransferGo sd ca oc i l acc).1.error =
          acc.success + acc.skip + acc.error + l.length) := by
  induction l with
  | nil =>
      intro i acc
      simp [runTransferGo]
  | cons p rest ih =>
      intro i acc
      by_cases hc : cancelRequested ca i = true
      · constructor
        · simp [runTransferGo, hc]
        · intro h
          simp [runTransferGo, hc] at h
      · by_cases hs : (sd && p.is_duplicate) = true
        · have hstep : runTransferGo sd ca oc i (p :: rest) acc =
              runTransferGo sd ca oc (i + 1) rest
                { acc with skip := acc.skip + 1 } := by
            simp [runTransferGo, hc, hs]
          obtain ⟨ha, hb⟩ := ih (i + 1) { acc with skip := acc.skip + 1 }
          rw [hstep]
          simp only [List.length_cons]
          simp at ha hb
          constructor
          · omega
          · intro h
            have := hb h
            omega
        · cases hoc : oc i with
          | copied =>
              have hstep : runTransferGo sd ca oc i (p :: rest) acc =
                  runTransferGo sd ca oc (i + 1) rest
                    { acc with success := acc.success + 1,
                               copied := acc.copied ++ [i] } := by
                simp [runTransferGo, hc, hs, hoc]
              obtain ⟨ha, hb⟩ := ih (i + 1)
                { acc with success := acc.success + 1,
                           copied := acc.copied ++ [i] }
              rw [hstep]
              simp only [List.length_cons]
              simp at ha hb
              constructor
              · omega
              · intro h
                have := hb h
                omega
          | alreadyPresent =>
              have hstep : runTransferGo sd ca oc i (p :: rest) acc =
                  runTransferGo sd ca oc (i + 1) rest
                    { acc with skip := acc.skip + 1 } := by
                simp [runTransferGo, hc, hs, hoc]
              obtain ⟨ha, hb⟩ := ih (i + 1) { acc with skip := acc.skip + 1 }
              rw [hstep]
              simp only [List.length_cons]
              simp at ha hb
              constructor
              · omega
              · intro h
                have := hb h
                omega
          | failed msg =>
              have hstep : runTransferGo sd ca oc i (p :: rest) acc =
                  runTransferGo sd ca oc (i + 1) rest
                    { acc with error := acc.error + 1,
                               errors := acc.errors ++ [msg] } := by
                simp [runTransferGo, hc, hs, hoc]
              obtain ⟨ha, hb⟩ := ih (i + 1)
                { acc with error := acc.error + 1,
                           errors := acc.errors ++ [msg] }
              rw [hstep]
              simp only [List.length_cons]
              simp at ha hb
              constructor
              · omega
              · intro h
                have := hb h
                omega

lemma runGo_copied_bound (sd : Bool) (ca : Option Nat)
    (oc : Nat → CopyOutcome) (l : List PhotoInfo) :
    ∀ (i : Nat) (acc : RunAcc),
      (∀ c ∈ acc.copied, c < i + l.length) →
      ∀ c ∈ (runTransferGo sd ca oc i l acc).1.copied, c < i + l.length := by
  induction l with
  | nil =>
      intro i acc h
      simpa [runTransferGo] using h
  | cons p rest ih =>
      intro i acc hacc
      by_cases hc : cancelRequested ca i = true
      · intro c hm
        simp [runTransferGo, hc] at hm
        have := hacc c hm
        simp only [List.length_cons] at this ⊢
        omega
      · by_cases hs : (sd && p.is_duplicate) = true
        · rw [show runTransferGo sd ca oc i (p :: rest) acc =
              runTransferGo sd ca oc (i + 1) rest
                { acc with skip := acc.skip + 1 } from by
            simp [runTransferGo, hc, hs]]
          intro c hm
          have h2 := ih (i + 1) { acc with skip := acc.skip + 1 } ?_ c hm
          · simp only [List.length_cons] at h2 ⊢
            omega
          · intro c2 hm2
            simp at hm2
            have := hacc c2 hm2
            simp only [List.length_cons] at this ⊢
            omega
        · cases hoc : oc i with
          | copied =>
              rw [show runTransferGo sd ca oc i (p :: rest) acc =
                  runTransferGo sd ca oc (i + 1) rest
                    { acc with success := acc.success + 1,
                               copied := acc.copied ++ [i] } from by
                simp [runTransferGo, hc, hs, hoc]]
              intro c hm
              have h2 := ih (i + 1)
                { acc with success := acc.success + 1,
                           copied := acc.copied ++ [i] } ?_ c hm
              · simp only [List.length_cons] at h2 ⊢
                omega
              · intro c2 hm2
                simp at hm2
                rcases hm2 with hm2 | hm2
                · have := hacc c2 hm2
                  simp only [List.length_cons] at this ⊢
                  omega
                · subst hm2
                  omega
          | alreadyPresent =>
              rw [show runTransferGo sd ca oc i (p :: rest) acc =
                  runTransferGo sd ca oc (i + 1) rest
                    { acc with skip := acc.skip + 1 } from by
                simp [runTransferGo, hc, hs, hoc]]
              intro c hm
              have h2 := ih (i + 1) { acc with skip := acc.skip + 1 } ?_ c hm
              · simp only [List.length_cons] at h2 ⊢
                omega
              · intro c2 hm2
                simp at hm2
                have := hacc c2 hm2
                simp only [List.length_cons] at this ⊢
                omega
          | failed msg =>
              rw [show runTransferGo sd ca oc i (p :: rest) acc =
                  runTransferGo sd ca oc (i + 1) rest
                    { acc with error := acc.error + 1,
                               errors := acc.errors ++ [msg] } from by
                simp [runTransferGo, hc, hs, hoc]]
              intro c hm
              have h2 := ih (i + 1)
                { acc with error := acc.error + 1,
                           errors := acc.errors ++ [msg] } ?_ c hm
              · simp only [List.length_cons] at h2 ⊢
                omega
              · intro c2 hm2
                simp at hm2
                have := hacc c2 hm2
                simp only [List.length_cons] at this ⊢
                omega

lemma runGo_cancel (sd : Bool) (oc : Nat → CopyOutcome) (k : Nat)
    (l : List PhotoInfo) :
    ∀ (i : Nat) (acc : RunAcc), i ≤ k → k - i < l.length →
      runTransferGo sd (some k) oc i l acc =
        ({ (runTransferGo sd none oc i (l.take (k - i)) acc).1 with
            errors :=
              (runTransferGo sd none oc i (l.take (k - i)) acc).1.errors ++
                [cancelSentinel] },
         TStatus.cancelled) := by
  induction l with
  | nil =>
      intro i acc hik h
      simp at h
  | cons p rest ih =>
      intro i acc hik hlt
      by_cases hik2 : i = k
      · subst hik2
        have hci : cancelRequested (some i) i = true := by
          simp [cancelRequested]
        simp [runTransferGo, hci, Nat.sub_self]
      · have hik3 : i < k := lt_of_le_of_ne hik hik2
        have hci : cancelRequested (some k) i = false := by
          simp only [cancelRequested, decide_eq_false_iff_not]
          omega
        have htake : (p :: rest).take (k - i) = p :: rest.take (k - i - 1) := by
          cases hki : k - i with
          | zero => omega
          | succ m => simp [List.take_succ_cons]
        have hsub : k - i - 1 = k - (i + 1) := by omega
        rw [htake, hsub]
        have hlt2 : k - (i + 1) < rest.length := by
          simp only [List.length_cons] at hlt
          omega
        by_cases hs : (sd && p.is_duplicate) = true
        · rw [show runTransferGo sd (some k) oc i (p :: rest) acc =
              runTransferGo sd (some k) oc (i + 1) rest
                { acc with skip := acc.skip + 1 } from by
            simp [runTransferGo, hci, hs]]
          rw [show runTransferGo sd none oc i
                (p :: rest.take (k - (i + 1))) acc =
              runTransferGo sd none oc (i + 1) (rest.take (k - (i + 1)))
                { acc with skip := acc.skip + 1 } from by
            simp [runTransferGo, cancelRequested, hs]]
          exact ih (i + 1) _ (by omega) hlt2
        · cases hoc : oc i with
          | copied =>
              rw [show runTransferGo sd (some k) oc i (p :: rest) acc =
                  runTransferGo sd (some k) oc (i + 1) rest
                    { acc with success := acc.success + 1,
                               copied := acc.copied ++ [i] } from by
                simp [runTransferGo, hci, hs, hoc]]
              rw [show runTransferGo sd none oc i
                    (p :: rest.take (k - (i + 1))) acc =
                  runTransferGo sd none oc (i + 1)
                    (rest.take (k - (i + 1)))
                    { acc with success := acc.success + 1,
                               copied := acc.copied ++ [i] } from by
                simp [runTransferGo, cancelRequested, hs, hoc]]
              exact ih (i + 1) _ (by omega) hlt2
          | alreadyPresent =>
              rw [show runTransferGo sd (some k) oc i (p :: rest) acc =
                  runTransferGo sd (some k) oc (i + 1) rest
                    { acc with skip := acc.skip + 1 } from by
                simp [runTransferGo, hci, hs, hoc]]
              rw [show runTransferGo sd none oc i
                    (p :: rest.take (k - (i + 1))) acc =
                  runTransferGo sd none oc (i + 1)
                    (rest.take (k - (i + 1)))
                    { acc with skip := acc.skip + 1 } from by
                simp [runTransferGo, cancelRequested, hs, hoc]]
              exact ih (i + 1) _ (by omega) hlt2
          | failed msg =>
              rw [show runTransferGo sd (some k) oc i (p :: rest) acc =
                  runTransferGo sd (some k) oc (i + 1) rest
                    { acc with error := acc.error + 1,
                               errors := acc.errors ++ [msg] } from by
                simp [runTransferGo, hci, hs, hoc]]
              rw [show runTransferGo sd none oc i
                    (p :: rest.take (k - (i + 1))) acc =
                  runTransferGo sd none oc (i + 1)
                    (rest.take (k - (i + 1)))
                    { acc with error := acc.error + 1,
                               errors := acc.errors ++ [msg] } from by
                simp [runTransferGo, cancelRequested, hs, hoc]]
              exact ih (i + 1) _ (by omega) hlt2

/-- C3: for every transfer run over a scanned batch,
`success_count + skip_count + error_count` is at most the batch's
`total_files`, with equality whenever the run was not cancelled. -/
theorem transfer_count_invariant (template fallback : String)
    (files : List SourceFile) (skipDup : Bool) (cancelAt : Option Nat)
    (outcome : Nat → CopyOutcome) :
    (runTransfer skipDup cancelAt outcome
        (scanSourceFolder template fallback files).photos).1.success_count +
      (runTransfer skipDup cancelAt outcome
        (scanSourceFolder template fallback files).photos).1.skip_count +
      (runTransfer skipDup cancelAt outcome
        (scanSourceFolder template fallback files).photos).1.error_count ≤
      (scanSourceFolder template fallback files).total_files ∧
    ((runTransfer skipDup cancelAt outcome
        (scanSourceFolder template fallback files).photos).2.1 ≠
        TStatus.cancelled →
      (runTransfer skipDup cancelAt outcome
          (scanSourceFolder template fallback files).photos).1.success_count +
        (runTransfer skipDup cancelAt outcome
          (scanSourceFolder template fallback files).photos).1.skip_count +
        (runTransfer skipDup cancelAt outcome
          (scanSourceFolder template fallback files).photos).1.error_count =
        (scanSourceFolder template fallback files).total_files) := by
  obtain ⟨ha, hb⟩ := runGo_counts skipDup cancelAt outcome
    (scanSourceFolder template fallback files).photos 0
    { success := 0, skip := 0, error := 0, errors := [], copied := [] }
  rw [scan_total_files_eq]
  constructor
  · simpa [runTransfer] using ha
  · intro h
    have := hb (by simpa [runTransfer] using h)
    simpa [runTransfer] using this

/-- Witness for C3 at a concrete uncancelled run over a scanned batch. -/
theorem transfer_count_invariant_witness :
    (runTransfer true none (fun _ => CopyOutcome.copied)
        (scanSourceFolder "{year}" "Unknown" [fileA, fileB]).photos).1.success_count +
      (runTransfer true none (fun _ => CopyOutcome.copied)
        (scanSourceFolder "{year}" "Unknown" [fileA, fileB]).photos).1.skip_count +
      (runTransfer true none (fun _ => CopyOutcome.copied)
        (scanSourceFolder "{year}" "Unknown" [fileA, fileB]).photos).1.error_count =
      (scanSourceFolder "{year}" "Unknown" [fileA, fileB]).total_files :=
  (transfer_count_invariant "{year}" "Unknown" [fileA, fileB] true none
    (fun _ => CopyOutcome.copied)).2 (by decide)

/-- C4: if cancellation is requested at check point `k` before the run
finishes (`k < photos.length`), the run terminates with status
`cancelled`, the sentinel cancellation entry is in the result's
`errors`, no file at or after the check point `k` is copied, and the
files copied are exactly those an uncancelled run over the first `k`
photos copies (work completed before the cancellation remains). -/
theorem transfer_cancellation (skipDup : Bool) (outcome : Nat → CopyOutcome)
    (photos : List PhotoInfo) (k : Nat) (hk : k < photos.length) :
    (runTransfer skipDup (some k) outcome photos).2.1 = TStatus.cancelled ∧
    cancelSentinel ∈ (runTransfer skipDup (some k) outcome photos).1.errors ∧
    (∀ c ∈ (runTransfer skipDup (some k) outcome photos).2.2, c < k) ∧
    (runTransfer skipDup (some k) outcome photos).2.2 =
      (runTransfer skipDup none outcome (photos.take k)).2.2 := by
  have hcan := runGo_cancel skipDup outcome k photos 0
    { success := 0, skip := 0, error := 0, errors := [], copied := [] }
    (Nat.zero_le k) (by simpa using hk)
  simp only [Nat.sub_zero] at hcan
  have hbound := runGo_copied_bound skipDup none outcome (photos.take k) 0
    { success := 0, skip := 0, error := 0, errors := [], copied := [] }
    (by simp)
  refine ⟨?_, ?_, ?_, ?_⟩
  · simp [runTransfer, hcan]
  · simp [runTransfer, hcan, cancelSentinel]
  · intro c hm
    simp only [runTransfer] at hm
    rw [hcan] at hm
    simp at hm
    have := hbound c hm
    have hlen : (photos.take k).length ≤ k := by
      rw [List.length_take]
      omega
    omega
  · simp only [runTransfer]
    rw [hcan]

/-- Witness for C4 at a concrete two-photo batch cancelled at `k = 1`. -/
theorem transfer_cancellation_witness :
    (1 < ([default, default] : List PhotoInfo).length) ∧
    ((runTransfer false (some 1) (fun _ => CopyOutcome.copied)
        [default, default]).2.1 = TStatus.cancelled ∧
    cancelSentinel ∈ (runTransfer false (some 1) (fun _ => CopyOutcome.copied)
        [default, default]).1.errors ∧
    (∀ c ∈ (runTransfer false (some 1) (fun _ => CopyOutcome.copied)
        [default, default]).2.2, c < 1) ∧
    (runTransfer false (some 1) (fun _ => CopyOutcome.copied)
        [default, default]).2.2 =
      (runTransfer false none (fun _ => CopyOutcome.copied)
        (([default, default] : List PhotoInfo).take 1)).2.2) :=
  ⟨by decide,
   transfer_cancellation false (fun _ => CopyOutcome.copied)
     [default, default] 1 (by decide)⟩

/-- C5: for every invocation of `startTransfer` without a successful
scan result (no scan result, or a scan result with zero files), the
handler sets a precondition error message and does not invoke the
transfer command; when a target directory is selected the message is
the "no photos to transfer" precondition error. -/
theorem start_transfer_precondition (s : AppState)
    (h : s.scanResult = none ∨
      ∃ r, s.scanResult = some r ∧ r.total_files = 0) :
    (startTransfer s).2 = false ∧
    (startTransfer s).1.errorMessage ≠ "" ∧
    (s.targetDir ≠ "" →
      (startTransfer s).1.errorMessage = "没有可传输的照片") := by
  by_cases ht : s.targetDir = ""
  · have hstep : startTransfer s =
        ({ s with errorMessage := "请先选择目标文件夹" }, false) := by
      simp [startTransfer, ht]
    rw [hstep]
    exact ⟨rfl, (by decide : ("请先选择目标文件夹" : String) ≠ ""),
      fun hcon => absurd ht hcon⟩
  · have hstep : startTransfer s =
        ({ s with errorMessage := "没有可传输的照片" }, false) := by
      rcases h with hn | ⟨r, hr, hz⟩
      · simp [startTransfer, ht, hn]
      · simp [startTransfer, ht, hr, hz]
    rw [hstep]
    exact ⟨rfl, (by decide : ("没有可传输的照片" : String) ≠ ""), fun _ => rfl⟩

/-- A concrete frontend state: target directory chosen, no scan yet. -/
def sampleState : AppState :=
  { selectedTemplate := "{year}/{month}", customTemplate := "{year}/{month}",
    fallbackFolder := "未知日期", sourceDir := "", targetDir := "/nas",
    scanResult := none, classificationPreview := [], skipDuplicates := true,
    isScanning := false, isTransferring := false, transferProgress := none,
    transferResult := none, errorMessage := "", activeTab := "config",
    renameEnabled := false, selectedRenameTemplate := "{original}",
    customRenameTemplate := "{date}_{original}", renameCounterStart := 1,
    renameCounterDigits := 4, transferHistory := [], thumbnails := [] }

/-- Witness for C5 at `sampleState` (no scan result). -/
theorem start_transfer_precondition_witness :
    (sampleState.scanResult = none ∨
      ∃ r, sampleState.scanResult = some r ∧ r.total_files = 0) ∧
    ((startTransfer sampleState).2 = false ∧
      (startTransfer sampleState).1.errorMessage ≠ "" ∧
      (sampleState.targetDir ≠ "" →
        (startTransfer sampleState).1.errorMessage = "没有可传输的照片")) :=
  ⟨Or.inl rfl, start_transfer_precondition sampleState (Or.inl rfl)⟩

/-- C6: the classifier is a (pure) function of
`(date_time, camera, make, template, fallback)`; whenever `date_time`
is absent the entire result equals `fallback` for every template, and
template "\x7byear\x7d/\x7bmonth\x7d" on a photo dated 2024-03-15
yields "2024/03". -/
theorem classify_fallback_and_scenario :
    (∀ (camera mk : Option String) (template fallback : String),
        classifyPath none camera mk template fallback = fallback) ∧
    classifyPath (some ⟨2024, 3, 15⟩) none none "{year}/{month}" "Unknown" =
      "2024/03" :=
  ⟨fun _ _ _ _ => rfl, by decide⟩

/-- C7 counterexample: the `PhotoInfo` interface does not carry both a
`camera` and a `make` field — `make` is absent from its field list. -/
theorem photoinfo_make_counterexample :
    ¬ ("camera" ∈ PhotoInfo.fields ∧ "make" ∈ PhotoInfo.fields) := by
  decide

/-- C7 amended: `PhotoInfo` carries an optional `camera` string but no
`make` field; the make value substituted for the \x7bmake\x7d template
token is the metadata collaborator's answer fed to the classifier, not
a `PhotoInfo` field. -/
theorem photoinfo_make_amended :
    "camera" ∈ PhotoInfo.fields ∧ "make" ∉ PhotoInfo.fields ∧
    classifyPath (some ⟨2024, 3, 15⟩) none (some "Canon") "{make}/{year}" "X" =
      "Canon/2024" :=
  ⟨by decide, by decide, by decide⟩

/-- C9: for a progress snapshot with `total = 0` (hence, by the data
model invariant `current ≤ total`, also `current = 0`), the unguarded
division makes `progressPercent` NaN — not 0 and not an error. -/
theorem progress_percent_total_zero (p : TransferProgress)
    (ht : p.total = 0) (hc : p.current ≤ p.total) :
    progressPercent (some p) = JsNum.nan ∧ JsNum.nan ≠ JsNum.num 0 := by
  have hcur : p.current = 0 := by omega
  refine ⟨?_, by decide⟩
  simp [progressPercent, jsDiv, jsMul, mathRound, ht, hcur]

/-- A concrete snapshot with `total = 0`. -/
def sampleProgress : TransferProgress :=
  { current := 0, total := 0, current_file := "", bytes_transferred := 0,
    total_bytes := 0, status := "transferring", skipped_duplicates := 0 }

/-- Witness for C9 at `sampleProgress`. -/
theorem progress_percent_total_zero_witness :
    (sampleProgress.total = 0 ∧
      sampleProgress.current ≤ sampleProgress.total) ∧
    (progressPercent (some sampleProgress) = JsNum.nan ∧
      JsNum.nan ≠ JsNum.num 0) :=
  ⟨⟨rfl, by decide⟩, progress_percent_total_zero sampleProgress rfl (by decide)⟩

/-- C10: choosing a source directory clears the scan-derived state
(`scanResult`, `classificationPreview`, `thumbnails`) and leaves the
target directory, the classify/rename configuration and the transfer
history unchanged; choosing a target directory changes only
`targetDir`. -/
theorem select_dir_frame (s : AppState) (d : String) (hd : d ≠ "") :
    (selectSourceDir s (some d)).sourceDir = d ∧
    (selectSourceDir s (some d)).scanResult = none ∧
    (selectSourceDir s (some d)).classificationPreview = [] ∧
    (selectSourceDir s (some d)).thumbnails = [] ∧
    (selectSourceDir s (some d)).targetDir = s.targetDir ∧
    (selectSourceDir s (some d)).selectedTemplate = s.selectedTemplate ∧
    (selectSourceDir s (some d)).customTemplate = s.customTemplate ∧
    (selectSourceDir s (some d)).fallbackFolder = s.fallbackFolder ∧
    (selectSourceDir s (some d)).skipDuplicates = s.skipDuplicates ∧
    (selectSourceDir s (some d)).renameEnabled = s.renameEnabled ∧
    (selectSourceDir s (some d)).selectedRenameTemplate =
      s.selectedRenameTemplate ∧
    (selectSourceDir s (some d)).customRenameTemplate =
      s.customRenameTemplate ∧
    (selectSourceDir s (some d)).renameCounterStart = s.renameCounterStart ∧
    (selectSourceDir s (some d)).renameCounterDigits = s.renameCounterDigits ∧
    (selectSourceDir s (some d)).transferHistory = s.transferHistory ∧
    selectTargetDir s (some d) = { s with targetDir := d } := by
  simp [selectSourceDir, selectTargetDir, hd]

/-- Witness for C10 at `sampleState` with directory "/photos". -/
theorem select_dir_frame_witness :
    ("/photos" : String) ≠ "" ∧
    ((selectSourceDir sampleState (some "/photos")).sourceDir = "/photos" ∧
    (selectSourceDir sampleState (some "/photos")).scanResult = none ∧
    (selectSourceDir sampleState (some "/photos")).classificationPreview =
      [] ∧
    (selectSourceDir sampleState (some "/photos")).thumbnails = [] ∧
    (selectSourceDir sampleState (some "/photos")).targetDir =
      sampleState.targetDir ∧
    (selectSourceDir sampleState (some "/photos")).selectedTemplate =
      sampleState.selectedTemplate ∧
    (selectSourceDir sampleState (some "/photos")).customTemplate =
      sampleState.customTemplate ∧
    (selectSourceDir sampleState (some "/photos")).fallbackFolder =
      sampleState.fallbackFolder ∧
    (selectSourceDir sampleState (some "/photos")).skipDuplicates =
      sampleState.skipDuplicates ∧
    (selectSourceDir sampleState (some "/photos")).renameEnabled =
      sampleState.renameEnabled ∧
    (selectSourceDir sampleState (some "/photos")).selectedRenameTemplate =
      sampleState.selectedRenameTemplate ∧
    (selectSourceDir sampleState (some "/photos")).customRenameTemplate =
      sampleState.customRenameTemplate ∧
    (selectSourceDir sampleState (some "/photos")).renameCounterStart =
      sampleState.renameCounterStart ∧
    (selectSourceDir sampleState (some "/photos")).renameCounterDigits =
      sampleState.renameCounterDigits ∧
    (selectSourceDir sampleState (some "/photos")).transferHistory =
      sampleState.transferHistory ∧
    selectTargetDir sampleState (some "/photos") =
      { sampleState with targetDir := "/photos" }) :=
  ⟨by decide, select_dir_frame sampleState "/photos" (by decide)⟩

lemma ends_self (t suf : String) : endsWithStr (t ++ suf) suf = true := by
  rw [endsWithStr, List.isPrefixOf_iff_prefix, String.data_append,
    List.reverse_append]
  exact List.prefix_append _ _

lemma cons2_prefix_false (a b d : Char) (x y : List Char) (h : b ≠ d) :
    ¬ (a :: b :: x <+: a :: d :: y) := by
  intro hp
  rcases List.cons_prefix_cons.mp hp with ⟨-, hp2⟩
  rcases List.cons_prefix_cons.mp hp2 with ⟨hbd, -⟩
  exact h hbd

lemma not_ends_mismatch (t suf p : String) (a b2 d2 : Char)
    (xs ys : List Char) (hsuf : suf.data.reverse = a :: b2 :: xs)
    (hp : p.data.reverse = a :: d2 :: ys) (hne : d2 ≠ b2) :
    endsWithStr (t ++ suf) p = false := by
  cases hE : endsWithStr (t ++ suf) p with
  | false => rfl
  | true =>
      exfalso
      rw [endsWithStr] at hE
      have hpre := List.isPrefixOf_iff_prefix.mp hE
      rw [String.data_append, List.reverse_append, hsuf, hp] at hpre
      rw [List.cons_append, List.cons_append] at hpre
      exact cons2_prefix_false a d2 b2 ys (xs ++ t.data.reverse) hne hpre

/-- C8: `formatSize` produces exactly one of four forms: a two-decimal
number ending in " GB" iff `bytes ≥ 1024³`, in " MB" iff
`1024² ≤ bytes < 1024³`, in " KB" iff `1024 ≤ bytes < 1024²`, and the
exact byte count followed by " B" iff `bytes < 1024`. -/
theorem format_size_forms (b : Nat) :
    (endsWithStr (formatSize b) " GB" = true ↔ 1073741824 ≤ b) ∧
    (endsWithStr (formatSize b) " MB" = true ↔
      1048576 ≤ b ∧ b < 1073741824) ∧
    (endsWithStr (formatSize b) " KB" = true ↔ 1024 ≤ b ∧ b < 1048576) ∧
    (endsWithStr (formatSize b) " B" = true ↔ b < 1024) ∧
    (1073741824 ≤ b → ∃ m : Nat, formatSize b =
      (natRepr (m / 100) ++ "." ++ String.mk (pad2 (m % 100))) ++ " GB") ∧
    (1048576 ≤ b → b < 1073741824 → ∃ m : Nat, formatSize b =
      (natRepr (m / 100) ++ "." ++ String.mk (pad2 (m % 100))) ++ " MB") ∧
    (1024 ≤ b → b < 1048576 → ∃ m : Nat, formatSize b =
      (natRepr (m / 100) ++ "." ++ String.mk (pad2 (m % 100))) ++ " KB") ∧
    (b < 1024 → formatSize b = natRepr b ++ " B") := by
  have e1 : (" GB" : String).data.reverse = 'B' :: 'G' :: [' '] := rfl
  have e2 : (" MB" : String).data.reverse = 'B' :: 'M' :: [' '] := rfl
  have e3 : (" KB" : String).data.reverse = 'B' :: 'K' :: [' '] := rfl
  have e4 : (" B" : String).data.reverse = 'B' :: ' ' :: [] := rfl
  by_cases hg : 1073741824 ≤ b
  · have hfs : formatSize b = toFixed2 b 1073741824 ++ " GB" := by
      simp [formatSize, hg]
    refine ⟨?_, ?_, ?_, ?_, ?_, ?_, ?_, ?_⟩
    · rw [hfs]
      exact iff_of_true (ends_self _ _) hg
    · rw [hfs, not_ends_mismatch _ " GB" " MB" 'B' 'G' 'M' _ _ e1 e2
        (by decide)]
      exact iff_of_false (by simp) (by omega)
    · rw [hfs, not_ends_mismatch _ " GB" " KB" 'B' 'G' 'K' _ _ e1 e3
        (by decide)]
      exact iff_of_false (by simp) (by omega)
    · rw [hfs, not_ends_mismatch _ " GB" " B" 'B' 'G' ' ' _ _ e1 e4
        (by decide)]
      exact iff_of_false (by simp) (by omega)
    · intro h
      exact ⟨(b * 100 * 2 + 1073741824) / (1073741824 * 2), by rw [hfs]; rfl⟩
    · intro h1 h2
      exact absurd hg (by omega)
    · intro h1 h2
      exact absurd hg (by omega)
    · intro h
      exact absurd hg (by omega)
  · by_cases hm : 1048576 ≤ b
    · have hfs : formatSize b = toFixed2 b 1048576 ++ " MB" := by
        simp [formatSize, hg, hm]
      refine ⟨?_, ?_, ?_, ?_, ?_, ?_, ?_, ?_⟩
      · rw [hfs, not_ends_mismatch _ " MB" " GB" 'B' 'M' 'G' _ _ e2 e1
          (by decide)]
        exact iff_of_false (by simp) hg
      · rw [hfs]
        exact iff_of_true (ends_self _ _) ⟨hm, by omega⟩
      · rw [hfs, not_ends_mismatch _ " MB" " KB" 'B' 'M' 'K' _ _ e2 e3
          (by decide)]
        exact iff_of_false (by simp) (by omega)
      · rw [hfs, not_ends_mismatch _ " MB" " B" 'B' 'M' ' ' _ _ e2 e4
          (by decide)]
        exact iff_of_false (by simp) (by omega)
      · intro h
        exact absurd h hg
      · intro h1 h2
        exact ⟨(b * 100 * 2 + 1048576) / (1048576 * 2), by rw [hfs]; rfl⟩
      · intro h1 h2
        exact absurd hm (by omega)
      · intro h
        exact absurd hm (by omega)
    · by_cases hk : 1024 ≤ b
      · have hfs : formatSize b = toFixed2 b 1024 ++ " KB" := by
          simp [formatSize, hg, hm, hk]
        refine ⟨?_, ?_, ?_, ?_, ?_, ?_, ?_, ?_⟩
        · rw [hfs, not_ends_mismatch _ " KB" " GB" 'B' 'K' 'G' _ _ e3 e1
            (by decide)]
          exact iff_of_false (by simp) hg
        · rw [hfs, not_ends_mismatch _ " KB" " MB" 'B' 'K' 'M' _ _ e3 e2
            (by decide)]
          exact iff_of_false (by simp) (by omega)
        · rw [hfs]
          exact iff_of_true (ends_self _ _) ⟨hk, by omega⟩
        · rw [hfs, not_ends_mismatch _ " KB" " B" 'B' 'K' ' ' _ _ e3 e4
            (by decide)]
          exact iff_of_false (by simp) (by omega)
        · intro h
          exact absurd h hg
        · intro h1 h2
          exact absurd h1 hm
        · intro h1 h2
          exact ⟨(b * 100 * 2 + 1024) / (1024 * 2), by rw [hfs]; rfl⟩
        · intro h
          exact absurd hk (by omega)
      · have hfs : formatSize b = natRepr b ++ " B" := by
          simp [formatSize, hg, hm, hk]
        refine ⟨?_, ?_, ?_, ?_, ?_, ?_, ?_, ?_⟩
        · rw [hfs, not_ends_mismatch _ " B" " GB" 'B' ' ' 'G' _ _ e4 e1
            (by decide)]
          exact iff_of_false (by simp) hg
        · rw [hfs, not_ends_mismatch _ " B" " MB" 'B' ' ' 'M' _ _ e4 e2
            (by decide)]
          exact iff_of_false (by simp) (by omega)
        · rw [hfs, not_ends_mismatch _ " B" " KB" 'B' ' ' 'K' _ _ e4 e3
            (by decide)]
          exact iff_of_false (by simp) (by omega)
        · rw [hfs]
          exact iff_of_true (ends_self _ _) (by omega)
        · intro h
          exact absurd h hg
        · intro h1 h2
          exact absurd h1 hm
        · intro h1 h2
          exact absurd h1 hk
        · intro h
          exact hfs

/-- Witness for C8 at `b = 500` (the " B" branch). -/
theorem format_size_forms_witness :
    (500 : Nat) < 1024 ∧ formatSize 500 = natRepr 500 ++ " B" :=
  ⟨by decide, (format_size_forms 500).2.2.2.2.2.2.2 (by decide)⟩

end PhotoTruck
